import Mathlib

/-!
Verification development for the background-asset selection and composition
pipeline of the no-code-architects toolkit.

The definitions below are a shallow embedding of
`src/services/v1/video/pexels_service.py` (combination ledger,
duration-constrained selector, asset fetcher) and
`src/services/v1/video/chroma_service.py` (hex colour decoding and the
per-pixel chroma mask).  Machine numbers are modelled as `Nat`, `Int` and
`Rat`; fallible code returns `Except`/`Option`; the filesystem and the
network are passed in explicitly as data.
-/

/-! ## Python string primitives used by the source -/

/-- Model of `str.lower()` for the ASCII identifiers the code compares. -/
def pyLower (s : String) : String := String.mk (s.data.map Char.toLower)

/-- Helper for substring search on character lists. -/
def listHasSub : List Char → List Char → Bool
  | _, [] => true
  | [], _ :: _ => false
  | c :: rest, n :: ns => List.isPrefixOf (n :: ns) (c :: rest) || listHasSub rest (n :: ns)

/-- Model of the Python `needle in hay` substring test. -/
def strHasSub (hay needle : String) : Bool := listHasSub hay.data needle.data

/-- Code-point comparison of character lists, as Python compares strings. -/
def charListLe : List Char → List Char → Bool
  | [], _ => true
  | _ :: _, [] => false
  | a :: as, b :: bs =>
    if a.toNat < b.toNat then true
    else if b.toNat < a.toNat then false
    else charListLe as bs

/-- Model of Python string `<=` (lexicographic by code point). -/
def pyStrLe (a b : String) : Bool := charListLe a.data b.data

/-- Stable insertion step for `pySorted`. -/
def insertAsc (c : String) : List String → List String
  | [] => [c]
  | d :: rest => if pyStrLe c d then c :: d :: rest else d :: insertAsc c rest

/-- Model of Python `sorted` on a list of strings (stable, ascending). -/
def pySorted : List String → List String
  | [] => []
  | c :: rest => insertAsc c (pySorted rest)

/-- Model of Python `repr` for the quote-free asset-id strings in play. -/
def pyRepr (s : String) : String := "'" ++ s ++ "'"

/-! ## Combination ledger (`pexels_service.py` lines 15-49)

The Python code keys the persisted ledger by `str(frozenset(video_ids))`.
A CPython `frozenset` of strings iterates in hash-table order, and string
hashes are salted per process (`PYTHONHASHSEED`), so the iteration order is
a property of the running process.  We model that order by an explicit list
`ho`: the process-specific total order on the id strings.  `frozensetElems`
is the sequence of distinct ids in iteration order, and `frozensetStr`
renders it exactly as `str` does. -/

/-- Elements of `frozenset ids` in the iteration order `ho` of this process. -/
def frozensetElems (ho ids : List String) : List String :=
  ho.filter (fun x => x ∈ ids)

/-- Model of `str(frozenset(ids))` in a process whose iteration order is `ho`. -/
def frozensetStr (ho ids : List String) : String :=
  match frozensetElems ho ids with
  | [] => "frozenset()"
  | es => "frozenset(\x7b" ++ String.intercalate ", " (es.map pyRepr) ++ "\x7d)"

/-- The outcome of reading the persisted ledger file, as seen by
`_load_used_assets`: the file may be missing, may raise an `OSError` on
open/read (no `except` clause catches it), may hold undecodable JSON
(raising `json.JSONDecodeError`, which is caught), or may decode. -/
inductive StoredLedger
  | missing
  | unreadable
  | invalidJson
  | valid (entries : List (String × Bool))
deriving DecidableEq

/-- The operating-system error that `open`/`read` can raise. -/
inductive OsError
  | readFailure
deriving DecidableEq

/-- Model of `_load_used_assets`: return `{}` when the file is absent; try
`json.load` otherwise, turning only `json.JSONDecodeError` into `{}`; an
`OSError` from opening or reading the file is not caught and propagates. -/
def load_used_assets : StoredLedger → Except OsError (List (String × Bool))
  | .missing => .ok []
  | .unreadable => .error .readFailure
  | .invalidJson => .ok []
  | .valid entries => .ok entries

/-- Model of `_register_used_combination` over the decoded ledger.  The
store is the set of keys of the persisted dict; since `str` renders two
frozensets equally exactly when their element sequences agree, we carry the
canonical element sequence `frozensetElems ho ids` as the key.  An empty id
list is never registered. -/
def register_used_combination (ho : List String) (store : List (List String))
    (video_ids : List String) : List (List String) :=
  if video_ids = [] then store else frozensetElems ho video_ids :: store

/-- Model of `_is_combination_used`: an empty combination is never used;
otherwise look the canonical key up in the persisted store. -/
def is_combination_used (ho : List String) (store : List (List String))
    (video_ids : List String) : Bool :=
  if video_ids = [] then false else decide (frozensetElems ho video_ids ∈ store)

/-- A sequence of `_register_used_combination` calls applied in order. -/
def applyRegisters (ho : List String) (store : List (List String)) :
    List (List String) → List (List String)
  | [] => store
  | s :: rest => applyRegisters ho (register_used_combination ho store s) rest

/-! ## Candidate construction (`pexels_service.py` lines 70-135) -/

/-- One entry of a video's `video_files` list, with the fields the code
reads; absent JSON fields are `none`. -/
structure VideoFile where
  width : Option ℤ
  height : Option ℤ
  link : Option String
deriving DecidableEq

/-- One entry of the API's `videos` list, with the fields the code reads.
`userName` is `user.name` with the dict-lookup default `""`; `pageUrl` is
the `url` field (`none` models an absent or `None` value, which the code
maps to `""` via `or`). -/
structure Video where
  vid : Option ℤ
  tags : List String
  pageUrl : Option String
  userName : String
  video_files : List VideoFile
  duration : Option ℚ
deriving DecidableEq

/-- A surviving candidate: `(video_id, url, duration)` as appended to
`candidates`. -/
structure Candidate where
  video_id : String
  url : String
  duration : ℚ
deriving DecidableEq

/-- Model of `str(video.get("id"))`: a missing id renders as `"None"`. -/
def pyStrOfId : Option ℤ → String
  | none => "None"
  | some n => toString n

/-- Python truthiness of an optional JSON integer (`None` and `0` falsy). -/
def truthyInt : Option ℤ → Bool
  | none => false
  | some n => decide (n ≠ 0)

/-- The strict filter: a landscape file of width at least 1280. -/
def isHdLandscape (f : VideoFile) : Bool :=
  truthyInt f.width && truthyInt f.height
    && decide (1280 ≤ f.width.getD 0) && decide (f.height.getD 0 < f.width.getD 0)

/-- The fallback filter: any landscape file. -/
def isLandscape (f : VideoFile) : Bool :=
  truthyInt f.width && truthyInt f.height && decide (f.height.getD 0 < f.width.getD 0)

/-- Valid files: HD landscape ones, else any landscape ones. -/
def validFilesOf (files : List VideoFile) : List VideoFile :=
  match files.filter isHdLandscape with
  | [] => files.filter isLandscape
  | f :: rest => f :: rest

/-- Stable insertion step for the width-descending sort. -/
def insertWidthDesc (f : VideoFile) : List VideoFile → List VideoFile
  | [] => [f]
  | g :: rest =>
    if g.width.getD 0 ≤ f.width.getD 0 then f :: g :: rest
    else g :: insertWidthDesc f rest

/-- Model of `valid_files.sort(key=width, reverse=True)`: Python's sort is
stable, and a stable sort by a total key is unique, so stable insertion
sort computes it. -/
def sortWidthDesc : List VideoFile → List VideoFile
  | [] => []
  | f :: rest => insertWidthDesc f (sortWidthDesc rest)

/-- The file chosen for a video: best-width valid file, if any. -/
def chosenFile (files : List VideoFile) : Option VideoFile :=
  match sortWidthDesc (validFilesOf files) with
  | [] => none
  | f :: _ => some f

/-- The tag-based person filter. -/
def personInTags (tags : List String) : Bool :=
  tags.any (fun t => strHasSub (pyLower t) "person")

/-- The display-URL person filter (missing url treated as `""`). -/
def personInUrl (u : Option String) : Bool :=
  strHasSub (pyLower (u.getD "")) "/people/" || strHasSub (pyLower (u.getD "")) "person"

/-- The uploader-name person filter. -/
def personInUser (n : String) : Bool :=
  strHasSub (pyLower n) "person" || strHasSub (pyLower n) "people"

/-- Model of the candidate-building loop (lines 78-133): dedupe by id,
apply the person filters, pick a landscape file, and require a truthy link
and duration before appending and marking the id seen. -/
def buildCandidates : List Video → List String → List Candidate
  | [], _ => []
  | v :: rest, seen =>
    let videoId := pyStrOfId v.vid
    if videoId = "" ∨ videoId ∈ seen then buildCandidates rest seen
    else if personInTags v.tags then buildCandidates rest seen
    else if personInUrl v.pageUrl then buildCandidates rest seen
    else if personInUser v.userName then buildCandidates rest seen
    else
      match chosenFile v.video_files with
      | none => buildCandidates rest seen
      | some f =>
        match f.link, v.duration with
        | some u, some d =>
          if u ≠ "" ∧ d ≠ 0 then
            ⟨videoId, u, d⟩ :: buildCandidates rest (videoId :: seen)
          else buildCandidates rest seen
        | some _, none => buildCandidates rest seen
        | none, _ => buildCandidates rest seen

/-! ## Duration-constrained selector (`pexels_service.py` lines 137-196)

The shuffled candidate list is taken as input (the shuffle itself is the
caller's nondeterminism).  The ledger file is re-read on every membership
test but never written during the loop, so a single `store` argument models
all the reads of one call. -/

/-- Stable insertion step for the duration-descending fallback sort. -/
def insertDurDesc (c : Candidate) : List Candidate → List Candidate
  | [] => [c]
  | d :: rest =>
    if d.duration ≤ c.duration then c :: d :: rest
    else d :: insertDurDesc c rest

/-- Model of `candidates.sort(key=duration, reverse=True)`: Python's sort
is stable and `reverse=True` preserves the order of equal keys, so stable
insertion sort (placing earlier elements before equal-duration later ones)
computes it. -/
def sortDurDesc : List Candidate → List Candidate
  | [] => []
  | c :: rest => insertDurDesc c (sortDurDesc rest)

/-- Model of the fresh-combination loop (lines 151-167): for each candidate
in shuffled order, tentatively extend the accepted combination; accept the
candidate only when the extended id set is not in the ledger; return as
soon as the accumulated duration reaches the target while the accepted
count is within `max_videos`. -/
def freshLoop (ho : List String) (store : List (List String))
    (total_duration : ℚ) (max_videos : ℕ) :
    List Candidate → List Candidate → ℚ → Option (List Candidate)
  | [], _, _ => none
  | c :: rest, acc, tot =>
    let tempIds := pySorted (acc.map Candidate.video_id ++ [c.video_id])
    if is_combination_used ho store tempIds then
      freshLoop ho store total_duration max_videos rest acc tot
    else
      let acc' := acc ++ [c]
      let tot' := tot + c.duration
      if total_duration ≤ tot' ∧ acc'.length ≤ max_videos then some acc'
      else freshLoop ho store total_duration max_videos rest acc' tot'

/-- Model of the best-effort fallback loop (lines 179-186): walk the
duration-descending candidates, appending while fewer than `max_videos`
are accepted, and break once the accumulated duration reaches the target. -/
def fallbackLoop (max_videos : ℕ) (total_duration : ℚ) :
    List Candidate → List Candidate → ℚ → List Candidate
  | [], acc, _ => acc
  | c :: rest, acc, tot =>
    if acc.length < max_videos then
      let acc' := acc ++ [c]
      let tot' := tot + c.duration
      if total_duration ≤ tot' then acc'
      else fallbackLoop max_videos total_duration rest acc' tot'
    else fallbackLoop max_videos total_duration rest acc tot

/-- Model of lines 141-196: given the (already shuffled) candidate pool,
return the selection triple `(urls, durations, video_ids)` together with
the ledger store after the call.  Only the fresh-path success return
registers its combination; the fallback return leaves the store as read. -/
def selectCore (ho : List String) (store : List (List String))
    (cands : List Candidate) (total_duration : ℚ) (max_videos : ℕ) :
    (List String × List ℚ × List String) × List (List String) :=
  if cands = [] then (([], [], []), store)
  else
    match freshLoop ho store total_duration max_videos cands [] 0 with
    | some acc =>
      ((acc.map Candidate.url, acc.map Candidate.duration, acc.map Candidate.video_id),
        register_used_combination ho store (acc.map Candidate.video_id))
    | none =>
      let acc := fallbackLoop max_videos total_duration (sortDurDesc cands) [] 0
      ((acc.map Candidate.url, acc.map Candidate.duration, acc.map Candidate.video_id),
        store)

/-- The upstream search call's outcome: a `requests` transport exception,
or an HTTP response with a status code and decoded body. -/
inductive ApiResult
  | transportError
  | response (status : ℕ) (videos : List Video)

/-- Model of `response.raise_for_status()`: it raises `HTTPError` (a
`RequestException`) exactly for 4xx and 5xx status codes. -/
def raise_for_status_fails (status : ℕ) : Bool :=
  decide (400 ≤ status ∧ status < 600)

/-- Model of `get_pexels_videos_for_duration` (lines 52-196): a transport
failure or error status is caught and returns three empty lists (the
function returns normally, it does not raise); otherwise the candidates
are built, shuffled and fed to the selection core. -/
def get_pexels_videos_for_duration (ho : List String) (store : List (List String))
    (api : ApiResult) (shuffle : List Candidate → List Candidate)
    (total_duration : ℚ) (max_videos : ℕ) :
    (List String × List ℚ × List String) × List (List String) :=
  match api with
  | .transportError => (([], [], []), store)
  | .response status videos =>
    if raise_for_status_fails status then (([], [], []), store)
    else selectCore ho store (shuffle (buildCandidates videos [])) total_duration max_videos

/-! ## Asset fetcher (`pexels_service.py` lines 199-231) -/

/-- Model of the filename sanitisation: each of the reserved characters is
replaced by an underscore (single-character `str.replace` chains compose
to a character map, and `_` is not itself replaced). -/
def sanitize_filename (s : String) : String :=
  String.mk (s.data.map (fun c =>
    if c ∈ ['/', '\\', ':', '*', '?', '"', '<', '>', '|'] then '_' else c))

/-- How the streamed transfer of one fetch goes: the request itself may
raise before the output file is opened, the chunk stream may raise after
`chunks` have been written, or all chunks arrive. -/
inductive Transfer
  | failEarly
  | interrupted (chunks : List String)
  | complete (chunks : List String)

/-- The streaming write loop: the file contents present at the target path
when the loop ends, and whether the transfer completed. -/
def writeStream : Transfer → Option String × Bool
  | .failEarly => (none, false)
  | .interrupted chunks => (some (String.join chunks), false)
  | .complete chunks => (some (String.join chunks), true)

/-- Model of the `except` cleanup: `os.remove(path)` guarded by
`os.path.exists(path)`; afterwards nothing is at the path. -/
def removeIfExists : Option String → Option String
  | some _ => none
  | none => none

/-- What one call to `download_asset` did: the value returned or exception
raised, the file at the computed path afterwards, and how many network
transfers were performed. -/
structure DownloadOutcome where
  result : Except String String
  fileAfter : Option String
  transfers : ℕ

/-- Model of `download_asset` at its computed target path: return the path
untouched when a file already exists there; otherwise perform the
transfer, and on a `RequestException` delete any partially written file
before re-raising. -/
def download_asset (path : String) (existing : Option String) (t : Transfer) :
    DownloadOutcome :=
  match existing with
  | some content => ⟨.ok path, some content, 0⟩
  | none =>
    match writeStream t with
    | (file, true) => ⟨.ok path, file, 1⟩
    | (file, false) => ⟨.error "RequestException", removeIfExists file, 1⟩

/-! ## Chroma mask (`chroma_service.py` lines 50-59 and 184-192) -/

/-- Value of one hexadecimal digit, as `int(_, 16)` reads it. -/
def hexDigitVal (c : Char) : Option ℕ :=
  if '0' ≤ c ∧ c ≤ '9' then some (c.toNat - '0'.toNat)
  else if 'a' ≤ c ∧ c ≤ 'f' then some (c.toNat - 'a'.toNat + 10)
  else if 'A' ≤ c ∧ c ≤ 'F' then some (c.toNat - 'A'.toNat + 10)
  else none

/-- Value of `int(two_hex_chars, 16)`. -/
def hexPairVal (c1 c2 : Char) : Option ℕ :=
  match hexDigitVal c1, hexDigitVal c2 with
  | some h, some l => some (16 * h + l)
  | _, _ => none

/-- Model of `hex_to_rgb`: strip leading `#`s, require six characters, and
decode the three hex pairs at offsets 0, 2, 4. -/
def hex_to_rgb (hex_color : String) : Except String (ℕ × ℕ × ℕ) :=
  match hex_color.data.dropWhile (fun c => c = '#') with
  | [c0, c1, c2, c3, c4, c5] =>
    match hexPairVal c0 c1, hexPairVal c2 c3, hexPairVal c4 c5 with
    | some r, some g, some b => .ok (r, g, b)
    | _, _, _ => .error "Invalid hex character in color string."
  | _ => .error "Invalid hex color format. Use #RRGGBB."

/-- Model of `chroma_mask_func` at one pixel: the frame and the chroma
colour are cast to signed integers, the per-channel absolute differences
are compared with the threshold, and the returned opacity is `0.0` when
all three differences are strictly below it (background) and `1.0`
otherwise (the boolean mask is inverted and cast to float). -/
def chroma_mask_func (pixel : ℤ × ℤ × ℤ) (chroma_rgb : ℤ × ℤ × ℤ)
    (threshold : ℤ) : ℚ :=
  if |pixel.1 - chroma_rgb.1| < threshold ∧ |pixel.2.1 - chroma_rgb.2.1| < threshold
      ∧ |pixel.2.2 - chroma_rgb.2.2| < threshold then 0 else 1

/-! ## Helper lemmas -/

/-- Membership in a frozenset's element sequence. -/
theorem mem_frozensetElems (ho l : List String) (x : String) :
    x ∈ frozensetElems ho l ↔ x ∈ ho ∧ x ∈ l := by
  simp [frozensetElems]

/-- Within one process, the canonical key determines the id set, provided
the process order covers the ids in play. -/
theorem frozensetElems_eq_imp (ho S T : List String)
    (hS : ∀ x ∈ S, x ∈ ho) (hT : ∀ x ∈ T, x ∈ ho)
    (h : frozensetElems ho S = frozensetElems ho T) :
    ∀ x, x ∈ S ↔ x ∈ T := by
  intro x
  constructor
  · intro hx
    have hmem : x ∈ frozensetElems ho S := (mem_frozensetElems ho S x).2 ⟨hS x hx, hx⟩
    rw [h] at hmem
    exact ((mem_frozensetElems ho T x).1 hmem).2
  · intro hx
    have hmem : x ∈ frozensetElems ho T := (mem_frozensetElems ho T x).2 ⟨hT x hx, hx⟩
    rw [← h] at hmem
    exact ((mem_frozensetElems ho S x).1 hmem).2

/-- A key absent from the store stays absent through registrations of id
sets that all differ from `S` as sets. -/
theorem key_not_in_applyRegisters (ho : List String) (S : List String)
    (hS : ∀ x ∈ S, x ∈ ho) :
    ∀ (ops : List (List String)) (store : List (List String)),
      frozensetElems ho S ∉ store →
      (∀ T ∈ ops, (∀ x ∈ T, x ∈ ho) ∧ ¬ ((∀ x ∈ S, x ∈ T) ∧ (∀ x ∈ T, x ∈ S))) →
      frozensetElems ho S ∉ applyRegisters ho store ops := by
  intro ops
  induction ops with
  | nil =>
    intro store h _
    simpa [applyRegisters] using h
  | cons T rest ih =>
    intro store hstore hops
    simp only [applyRegisters]
    apply ih
    · unfold register_used_combination
      by_cases hT : T = []
      · simpa [hT] using hstore
      · rw [if_neg hT]
        intro hmem
        rcases List.mem_cons.1 hmem with heq | hmem'
        · have hcov := (hops T (List.mem_cons_self T rest)).1
          have hsame := frozensetElems_eq_imp ho S T hS hcov heq
          exact (hops T (List.mem_cons_self T rest)).2
            ⟨fun x hx => (hsame x).1 hx, fun x hx => (hsame x).2 hx⟩
        · exact hstore hmem'
    · intro T' hT'
      exact hops T' (List.mem_cons_of_mem _ hT')

/-- A successful fresh-loop return accumulates at least the target
duration and is non-empty. -/
theorem freshLoop_some_sum (ho : List String) (store : List (List String))
    (total_duration : ℚ) (max_videos : ℕ) :
    ∀ (l acc : List Candidate) (tot : ℚ),
      tot = (acc.map Candidate.duration).sum →
      ∀ res, freshLoop ho store total_duration max_videos l acc tot = some res →
        total_duration ≤ (res.map Candidate.duration).sum ∧ res ≠ [] := by
  intro l
  induction l with
  | nil =>
    intro acc tot _ res h
    simp [freshLoop] at h
  | cons c rest ih =>
    intro acc tot htot res h
    simp only [freshLoop] at h
    split_ifs at h with h1 h2
    · exact ih acc tot htot res h
    · rcases Option.some.inj h with rfl
      refine ⟨?_, by simp⟩
      have hsum : ((acc ++ [c]).map Candidate.duration).sum = tot + c.duration := by
        rw [List.map_append, List.sum_append, htot]
        simp
      rw [hsum]
      exact h2.1
    · exact ih (acc ++ [c]) (tot + c.duration)
        (by rw [List.map_append, List.sum_append, htot]; simp) res h

/-- Once the accepted count has reached the cap, the fallback loop only
skips. -/
theorem fallbackLoop_of_full (max_videos : ℕ) (total_duration : ℚ) :
    ∀ (l acc : List Candidate) (tot : ℚ), ¬ acc.length < max_videos →
      fallbackLoop max_videos total_duration l acc tot = acc := by
  intro l
  induction l with
  | nil => intro acc tot _; rfl
  | cons c rest ih =>
    intro acc tot hfull
    simp only [fallbackLoop]
    rw [if_neg hfull]
    exact ih acc tot hfull

/-- The fallback loop appends an initial segment of its input list. -/
theorem fallbackLoop_take (max_videos : ℕ) (total_duration : ℚ) :
    ∀ (l acc : List Candidate) (tot : ℚ),
      ∃ k, fallbackLoop max_videos total_duration l acc tot = acc ++ l.take k := by
  intro l
  induction l with
  | nil => intro acc tot; exact ⟨0, by simp [fallbackLoop]⟩
  | cons c rest ih =>
    intro acc tot
    by_cases hlen : acc.length < max_videos
    · by_cases hbreak : total_duration ≤ tot + c.duration
      · refine ⟨1, ?_⟩
        simp only [fallbackLoop]
        rw [if_pos hlen, if_pos hbreak]
        simp
      · obtain ⟨k, hk⟩ := ih (acc ++ [c]) (tot + c.duration)
        refine ⟨k + 1, ?_⟩
        simp only [fallbackLoop]
        rw [if_pos hlen, if_neg hbreak, hk]
        simp [List.take_succ_cons]
    · refine ⟨0, ?_⟩
      rw [fallbackLoop_of_full max_videos total_duration (c :: rest) acc tot hlen]
      simp

/-- The fallback loop never accepts more than `max_videos` assets. -/
theorem fallbackLoop_length_le (max_videos : ℕ) (total_duration : ℚ) :
    ∀ (l acc : List Candidate) (tot : ℚ), acc.length ≤ max_videos →
      (fallbackLoop max_videos total_duration l acc tot).length ≤ max_videos := by
  intro l
  induction l with
  | nil => intro acc tot h; exact h
  | cons c rest ih =>
    intro acc tot h
    simp only [fallbackLoop]
    by_cases hlen : acc.length < max_videos
    · rw [if_pos hlen]
      by_cases hbreak : total_duration ≤ tot + c.duration
      · rw [if_pos hbreak]
        simpa using hlen
      · rw [if_neg hbreak]
        exact ih (acc ++ [c]) (tot + c.duration) (by simpa using hlen)
    · rw [if_neg hlen]
      exact ih acc tot h

/-- The fallback loop never drops an accepted asset. -/
theorem fallbackLoop_length_ge (max_videos : ℕ) (total_duration : ℚ) :
    ∀ (l acc : List Candidate) (tot : ℚ),
      acc.length ≤ (fallbackLoop max_videos total_duration l acc tot).length := by
  intro l
  induction l with
  | nil => intro acc tot; exact le_refl _
  | cons c rest ih =>
    intro acc tot
    simp only [fallbackLoop]
    by_cases hlen : acc.length < max_videos
    · rw [if_pos hlen]
      by_cases hbreak : total_duration ≤ tot + c.duration
      · rw [if_pos hbreak]; simp
      · rw [if_neg hbreak]
        calc acc.length ≤ (acc ++ [c]).length := by simp
          _ ≤ _ := ih (acc ++ [c]) (tot + c.duration)
    · rw [if_neg hlen]
      exact ih acc tot

/-- Stable insertion adds one element. -/
theorem insertDurDesc_length (c : Candidate) (l : List Candidate) :
    (insertDurDesc c l).length = l.length + 1 := by
  induction l with
  | nil => rfl
  | cons d rest ih =>
    simp only [insertDurDesc]
    by_cases h : d.duration ≤ c.duration
    · rw [if_pos h]; rfl
    · rw [if_neg h]; simp [ih]

/-- The duration-descending sort preserves length. -/
theorem sortDurDesc_length (l : List Candidate) :
    (sortDurDesc l).length = l.length := by
  induction l with
  | nil => rfl
  | cons c rest ih => simp [sortDurDesc, insertDurDesc_length, ih]

/-! ## Claim theorems -/

/-- C1: for every selector call on a non-empty candidate pool whose total
duration reaches the target, the returned selection either accumulates at
least the target duration (the fresh-combination success return), or — when
no unused combination meeting the target was found — it holds at most
`max_videos` assets and consists of the candidates taken in
duration-descending order (an initial segment of the stable
duration-descending sort of the pool). -/
theorem selector_meets_target_or_caps (ho : List String) (store : List (List String))
    (cands : List Candidate) (total_duration : ℚ) (max_videos : ℕ)
    (hne : cands ≠ [])
    (hpool : total_duration ≤ (cands.map Candidate.duration).sum) :
    total_duration ≤ (selectCore ho store cands total_duration max_videos).1.2.1.sum
    ∨ ((selectCore ho store cands total_duration max_videos).1.2.2.length ≤ max_videos
       ∧ ∃ k,
         (selectCore ho store cands total_duration max_videos).1
           = (((sortDurDesc cands).take k).map Candidate.url,
              ((sortDurDesc cands).take k).map Candidate.duration,
              ((sortDurDesc cands).take k).map Candidate.video_id)) := by
  unfold selectCore
  rw [if_neg hne]
  cases hfresh : freshLoop ho store total_duration max_videos cands [] 0 with
  | some acc =>
    left
    obtain ⟨hsum, -⟩ := freshLoop_some_sum ho store total_duration max_videos cands [] 0
      (by simp) acc hfresh
    simpa using hsum
  | none =>
    right
    obtain ⟨k, hk⟩ := fallbackLoop_take max_videos total_duration (sortDurDesc cands) [] 0
    constructor
    · have hlen := fallbackLoop_length_le max_videos total_duration (sortDurDesc cands) [] 0
        (by simp)
      simpa using hlen
    · refine ⟨k, ?_⟩
      simp only []
      rw [hk]
      simp

/-- C9: with a non-empty filtered pool and `max_videos` at least one, a
zero or negative target duration still yields a non-empty selection. -/
theorem selector_degenerate_target_nonempty (ho : List String) (store : List (List String))
    (cands : List Candidate) (total_duration : ℚ) (max_videos : ℕ)
    (hne : cands ≠ []) (hmv : 1 ≤ max_videos) (htd : total_duration ≤ 0) :
    (selectCore ho store cands total_duration max_videos).1.2.2 ≠ [] := by
  unfold selectCore
  rw [if_neg hne]
  cases hfresh : freshLoop ho store total_duration max_videos cands [] 0 with
  | some acc =>
    obtain ⟨-, hne'⟩ := freshLoop_some_sum ho store total_duration max_videos cands [] 0
      (by simp) acc hfresh
    simpa using hne'
  | none =>
    have hlen : 1 ≤ (fallbackLoop max_videos total_duration (sortDurDesc cands) [] 0).length := by
      cases hs : sortDurDesc cands with
      | nil =>
        exfalso
        apply hne
        have := sortDurDesc_length cands
        rw [hs] at this
        exact List.length_eq_zero.1 this.symm
      | cons c rest =>
        simp only [fallbackLoop]
        rw [if_pos (by simpa using hmv : ([] : List Candidate).length < max_videos)]
        by_cases hbreak : total_duration ≤ 0 + c.duration
        · rw [if_pos hbreak]; simp
        · rw [if_neg hbreak]
          have := fallbackLoop_length_ge max_videos total_duration rest ([] ++ [c])
            (0 + c.duration)
          simpa using this
    intro hcontra
    rw [List.map_eq_nil_iff] at hcontra
    rw [hcontra] at hlen
    simp at hlen

/-- C10: whenever the selector returns without the fresh-combination
success path — the pool is empty, or the fresh loop found no unused
combination meeting the target — the persisted ledger store is returned
unchanged; only the fresh success return registers its combination. -/
theorem selector_frame_without_fresh_success (ho : List String) (store : List (List String))
    (cands : List Candidate) (total_duration : ℚ) (max_videos : ℕ)
    (h : cands = [] ∨ freshLoop ho store total_duration max_videos cands [] 0 = none) :
    (selectCore ho store cands total_duration max_videos).2 = store := by
  unfold selectCore
  by_cases hne : cands = []
  · rw [if_pos hne]
  · rcases h with h | h
    · exact absurd h hne
    · rw [if_neg hne, h]

/-- C2: the chroma mask maps a pixel to opacity `0.0` exactly when all
three per-channel absolute differences to the decoded chroma colour are
strictly below the threshold, and to `1.0` otherwise; with chroma colour
`#00FF00` (decoding to `(0, 255, 0)`) and threshold 40, pixel
`(10, 250, 5)` maps to `0.0` and pixel `(200, 50, 50)` maps to `1.0`. -/
theorem chroma_mask_classification (pr pg pb cr cg cb t : ℤ) :
    (chroma_mask_func (pr, pg, pb) (cr, cg, cb) t = 0 ↔
      |pr - cr| < t ∧ |pg - cg| < t ∧ |pb - cb| < t)
    ∧ (chroma_mask_func (pr, pg, pb) (cr, cg, cb) t = 0
        ∨ chroma_mask_func (pr, pg, pb) (cr, cg, cb) t = 1)
    ∧ hex_to_rgb "#00FF00" = Except.ok (0, 255, 0)
    ∧ chroma_mask_func (10, 250, 5) (0, 255, 0) 40 = 0
    ∧ chroma_mask_func (200, 50, 50) (0, 255, 0) 40 = 1 := by
  refine ⟨?_, ?_, ?_, ?_, ?_⟩
  · unfold chroma_mask_func
    split_ifs with h
    · simpa using h
    · simpa using h
  · unfold chroma_mask_func
    split_ifs <;> simp
  · rfl
  · rfl
  · rfl

/-- C3: the persisted ledger key `str(frozenset(video_ids))` is not stable
across process restarts: the rendered key follows the per-process string
hash order, so the same id set `{a, b}` keys as `frozenset(\x7b'a', 'b'\x7d)`
under one process order and as `frozenset(\x7b'b', 'a'\x7d)` under another, and a
combination registered before a restart is missed afterwards.  This refutes
the claim that the key is identical across independent ledger operations
and process restarts. -/
theorem frozenset_key_unstable_across_processes :
    frozensetStr ["a", "b"] ["a", "b"] = "frozenset(\x7b'a', 'b'\x7d)"
    ∧ frozensetStr ["b", "a"] ["a", "b"] = "frozenset(\x7b'b', 'a'\x7d)"
    ∧ frozensetStr ["a", "b"] ["a", "b"] ≠ frozensetStr ["b", "a"] ["a", "b"]
    ∧ is_combination_used ["b", "a"]
        (register_used_combination ["a", "b"] [] ["a", "b"]) ["a", "b"] = false := by
  refine ⟨by decide, by decide, by decide, by decide⟩

/-- C4 counterexample: when the persisted store exists but is unreadable
(the open or read raises `OSError`), `_load_used_assets` does not return an
empty mapping — the exception propagates, because the code catches only
`json.JSONDecodeError`. -/
theorem load_used_assets_raises_on_unreadable :
    load_used_assets StoredLedger.unreadable = Except.error OsError.readFailure
    ∧ load_used_assets StoredLedger.unreadable ≠ Except.ok [] := by
  exact ⟨rfl, by simp [load_used_assets]⟩

/-- C4 (amended): a missing store or one holding invalid (undecodable)
JSON is treated as an empty ledger — loading returns the empty mapping
without raising — and a decodable store returns its entries; only an
OS-level read error propagates. -/
theorem load_used_assets_tolerates_invalid_store :
    load_used_assets StoredLedger.missing = Except.ok []
    ∧ load_used_assets StoredLedger.invalidJson = Except.ok []
    ∧ ∀ entries, load_used_assets (StoredLedger.valid entries) = Except.ok entries :=
  ⟨rfl, rfl, fun _ => rfl⟩

/-- C5: within one process (iteration order `ho` covering the ids in
play), registering a non-empty id set makes a subsequent membership test
on the same set return true; a non-empty id set absent from the persisted
store and never registered (every registered set differs from it as a set)
tests false; registering the empty set is a no-op and the empty set always
tests false. -/
theorem ledger_register_contains_spec (ho : List String) (store : List (List String))
    (S : List String) (ops : List (List String))
    (hS : S ≠ []) (hSho : ∀ x ∈ S, x ∈ ho)
    (hops : ∀ T ∈ ops, (∀ x ∈ T, x ∈ ho) ∧ ¬ ((∀ x ∈ S, x ∈ T) ∧ (∀ x ∈ T, x ∈ S)))
    (hstore : frozensetElems ho S ∉ store) :
    is_combination_used ho (register_used_combination ho store S) S = true
    ∧ is_combination_used ho (applyRegisters ho store ops) S = false
    ∧ register_used_combination ho store [] = store
    ∧ is_combination_used ho store [] = false := by
  refine ⟨?_, ?_, by simp [register_used_combination], by simp [is_combination_used]⟩
  · unfold is_combination_used register_used_combination
    rw [if_neg hS, if_neg hS]
    simp
  · unfold is_combination_used
    rw [if_neg hS]
    simp only [decide_eq_false_iff_not]
    exact key_not_in_applyRegisters ho S hSho ops store hstore hops

/-- C6: a fetch that fails with a transport error — whether the request
fails before the output file is opened or the chunk stream is interrupted
after a partial write — propagates the failure and leaves no file at the
computed target path. -/
theorem download_failure_removes_partial (path : String) (chunks : List String) :
    (download_asset path none (Transfer.interrupted chunks)).fileAfter = none
    ∧ (download_asset path none (Transfer.interrupted chunks)).result
        = Except.error "RequestException"
    ∧ (download_asset path none Transfer.failEarly).fileAfter = none
    ∧ (download_asset path none Transfer.failEarly).result
        = Except.error "RequestException" :=
  ⟨rfl, rfl, rfl, rfl⟩

/-- C7: fetching is idempotent: with a file already at the computed path,
`download_asset` returns that path, performs no network transfer and
leaves the file unchanged; fetching the same url and filename twice (the
first transfer completing) performs exactly one network transfer in total,
and the second call still returns the path. -/
theorem download_idempotent_single_transfer (path content : String) (t : Transfer)
    (chunks : List String) :
    download_asset path (some content) t
      = ⟨Except.ok path, some content, 0⟩
    ∧ (download_asset path none (Transfer.complete chunks)).transfers
        + (download_asset path
            (download_asset path none (Transfer.complete chunks)).fileAfter t).transfers = 1
    ∧ (download_asset path
        (download_asset path none (Transfer.complete chunks)).fileAfter t).result
          = Except.ok path :=
  ⟨rfl, rfl, rfl⟩

/-- C8: when the upstream search request fails in transport or returns an
error status (4xx/5xx makes `raise_for_status` raise, and the surrounding
`except` catches every `RequestException`), the function returns three
empty lists — and returns normally rather than raising. -/
theorem search_failure_yields_empty (ho : List String) (store : List (List String))
    (shuffle : List Candidate → List Candidate) (total_duration : ℚ) (max_videos : ℕ)
    (status : ℕ) (videos : List Video) (h4 : 400 ≤ status) (h6 : status < 600) :
    get_pexels_videos_for_duration ho store ApiResult.transportError shuffle
      total_duration max_videos = (([], [], []), store)
    ∧ get_pexels_videos_for_duration ho store (ApiResult.response status videos) shuffle
        total_duration max_videos = (([], [], []), store) := by
  constructor
  · rfl
  · have hfail : raise_for_status_fails status = true := by
      unfold raise_for_status_fails
      exact decide_eq_true ⟨h4, h6⟩
    show (if raise_for_status_fails status = true then (([], [], []), store)
        else selectCore ho store (shuffle (buildCandidates videos []))
          total_duration max_videos)
      = (([], [], []), store)
    rw [hfail]
    simp

/-! ## Witnesses -/

/-- Witness for C1: the single-candidate pool `[("a", "u", 5)]` with target
5 and cap 1 satisfies the hypotheses, and the theorem applies. -/
theorem selector_meets_target_or_caps_witness :
    (([⟨"a", "u", 5⟩] : List Candidate) ≠ []
      ∧ (5 : ℚ) ≤ (([⟨"a", "u", 5⟩] : List Candidate).map Candidate.duration).sum)
    ∧ ((5 : ℚ) ≤ (selectCore [] [] [⟨"a", "u", 5⟩] 5 1).1.2.1.sum
        ∨ ((selectCore [] [] [⟨"a", "u", 5⟩] 5 1).1.2.2.length ≤ 1
           ∧ ∃ k, (selectCore [] [] [⟨"a", "u", 5⟩] 5 1).1
               = (((sortDurDesc [⟨"a", "u", 5⟩]).take k).map Candidate.url,
                  ((sortDurDesc [⟨"a", "u", 5⟩]).take k).map Candidate.duration,
                  ((sortDurDesc [⟨"a", "u", 5⟩]).take k).map Candidate.video_id))) :=
  ⟨⟨List.cons_ne_nil _ _, by simp⟩,
    selector_meets_target_or_caps [] [] [⟨"a", "u", 5⟩] 5 1 (List.cons_ne_nil _ _) (by simp)⟩

/-- Witness for C9: one candidate, cap 1 and target 0 satisfy the
hypotheses, and the theorem applies. -/
theorem selector_degenerate_target_nonempty_witness :
    (([⟨"a", "u", 5⟩] : List Candidate) ≠ [] ∧ 1 ≤ 1 ∧ (0 : ℚ) ≤ 0)
    ∧ (selectCore [] [] [⟨"a", "u", 5⟩] 0 1).1.2.2 ≠ [] :=
  ⟨⟨List.cons_ne_nil _ _, le_refl 1, le_refl 0⟩,
    selector_degenerate_target_nonempty [] [] [⟨"a", "u", 5⟩] 0 1
      (List.cons_ne_nil _ _) (le_refl 1) (le_refl 0)⟩

/-- Witness for C10: with the sole candidate's combination already in the
store, the fresh loop finds nothing, and the theorem applies: the store
comes back unchanged. -/
theorem selector_frame_without_fresh_success_witness :
    ((([⟨"a", "u", 5⟩] : List Candidate) = [])
      ∨ freshLoop ["a"] [["a"]] 5 1 [⟨"a", "u", 5⟩] [] 0 = none)
    ∧ (selectCore ["a"] [["a"]] [⟨"a", "u", 5⟩] 5 1).2 = [["a"]] :=
  ⟨Or.inr rfl,
    selector_frame_without_fresh_success ["a"] [["a"]] [⟨"a", "u", 5⟩] 5 1 (Or.inr rfl)⟩

/-- Witness for C5: process order `["a", "b"]`, empty initial store, id
set `["a"]`, and one registration of the different set `["b"]`. -/
theorem ledger_register_contains_spec_witness :
    ((["a"] : List String) ≠ []
      ∧ (∀ x ∈ (["a"] : List String), x ∈ (["a", "b"] : List String))
      ∧ (∀ T ∈ ([["b"]] : List (List String)),
          (∀ x ∈ T, x ∈ (["a", "b"] : List String))
            ∧ ¬ ((∀ x ∈ (["a"] : List String), x ∈ T)
                  ∧ (∀ x ∈ T, x ∈ (["a"] : List String))))
      ∧ frozensetElems ["a", "b"] ["a"] ∉ ([] : List (List String)))
    ∧ (is_combination_used ["a", "b"]
          (register_used_combination ["a", "b"] [] ["a"]) ["a"] = true
        ∧ is_combination_used ["a", "b"] (applyRegisters ["a", "b"] [] [["b"]]) ["a"] = false
        ∧ register_used_combination ["a", "b"] [] [] = []
        ∧ is_combination_used ["a", "b"] [] [] = false) :=
  ⟨⟨by decide, by decide, by decide, by decide⟩,
    ledger_register_contains_spec ["a", "b"] [] ["a"] [["b"]]
      (by decide) (by decide) (by decide) (by decide)⟩

/-- Witness for C8: status 404 is an error status, and the theorem
applies: both failure modes return the empty triple. -/
theorem search_failure_yields_empty_witness :
    (400 ≤ 404 ∧ 404 < 600)
    ∧ (get_pexels_videos_for_duration [] [] ApiResult.transportError id 5 3
        = (([], [], []), [])
       ∧ get_pexels_videos_for_duration [] [] (ApiResult.response 404 []) id 5 3
        = (([], [], []), [])) :=
  ⟨⟨by decide, by decide⟩,
    search_failure_yields_empty [] [] id 5 3 404 [] (by decide) (by decide)⟩
